import Mathlib

/-!
Verification of the Safe Row Migration Engine of `index.js`
(sheets-external-automation).

The development shallowly embeds the row-migration code of `src/index.js`:
cells are strings, a sheet is its title, its column count and its grid of
rows, and the remote tabular store is the list of sheets.  Machine-level
JavaScript details that the code relies on (32-bit `<<` in the checksum,
`String(v)` coercions, `||` defaulting, trailing-empty trimming of range
reads) are embedded explicitly.  All definitions are executable.
-/

set_option maxRecDepth 100000

namespace SheetsAutomation

/-! ## JavaScript string primitives -/

/-- JS `String.prototype.toLowerCase` (ASCII case mapping suffices for the
status phrases compared by the engine), applied characterwise. -/
def toLowerStr (s : String) : String := ⟨s.data.map Char.toLower⟩

/-- JS `String.prototype.toUpperCase` (ASCII case mapping), characterwise. -/
def toUpperStr (s : String) : String := ⟨s.data.map Char.toUpper⟩

/-- `startsWithChars needle hay` is true iff `needle` is an initial
segment of `hay`. -/
def startsWithChars : List Char → List Char → Bool
  | [], _ => true
  | _ :: _, [] => false
  | c :: cs, d :: ds => c == d && startsWithChars cs ds

/-- `containsChars hay needle` is true iff `needle` occurs contiguously
inside `hay`. -/
def containsChars : List Char → List Char → Bool
  | hay, needle =>
    startsWithChars needle hay ||
      match hay with
      | [] => false
      | _ :: t => containsChars t needle

/-- JS `haystack.includes(needle)`: substring containment. -/
def includesStr (haystack needle : String) : Bool :=
  containsChars haystack.data needle.data

/-! ## Column-letter conversion (`a1ColToIndex` / `indexToA1Col`,
`index.js` lines 94-107).

A column label is modelled as its list of UTF-16 char codes, which is what
`charCodeAt` / `String.fromCharCode` manipulate. -/

/-- `a1ColToIndex` (index.js line 94): fold `n = n * 26 + (code - 64)` over
the char codes of the label. -/
def a1ColToIndex (codes : List Nat) : Nat :=
  codes.foldl (fun n c => n * 26 + (c - 64)) 0

/-- Loop body of `indexToA1Col` (index.js line 99).  The source loops
`while (n > 0)`, prepending `String.fromCharCode(65 + (n-1) % 26)` and
continuing with `Math.floor((n-1)/26)`; the `fuel` argument bounds the
loop and is sufficient because `(n-1)/26 < n`. -/
def indexToA1ColGo : Nat → Nat → List Nat
  | _, 0 => []
  | 0, _ + 1 => []
  | fuel + 1, n + 1 => indexToA1ColGo fuel (n / 26) ++ [65 + n % 26]

/-- `indexToA1Col` (index.js line 99): decimal-free base-26 letters. -/
def indexToA1Col (n : Nat) : List Nat := indexToA1ColGo n n

theorem a1ColToIndex_append (xs ys : List Nat) :
    a1ColToIndex (xs ++ ys) =
      ys.foldl (fun n c => n * 26 + (c - 64)) (a1ColToIndex xs) := by
  simp [a1ColToIndex, List.foldl_append]

theorem a1ColToIndex_indexToA1ColGo (fuel n : Nat) (h : n ≤ fuel) :
    a1ColToIndex (indexToA1ColGo fuel n) = n := by
  induction fuel generalizing n with
  | zero =>
    interval_cases n
    simp [indexToA1ColGo, a1ColToIndex]
  | succ fuel ih =>
    cases n with
    | zero => simp [indexToA1ColGo, a1ColToIndex]
    | succ m =>
      have hdiv : m / 26 ≤ fuel := by
        have := Nat.div_le_self m 26
        omega
      rw [indexToA1ColGo, a1ColToIndex_append, ih _ hdiv]
      have hmod : m % 26 < 26 := Nat.mod_lt _ (by omega)
      have := Nat.div_add_mod m 26
      simp only [List.foldl_cons, List.foldl_nil]
      omega

/-- C9 — Column-letter conversion round-trip: for every positive `n`,
`a1ColToIndex (indexToA1Col n) = n`. -/
theorem a1Col_roundTrip (n : Nat) (_h : 0 < n) :
    a1ColToIndex (indexToA1Col n) = n :=
  a1ColToIndex_indexToA1ColGo n n (Nat.le_refl n)

/-- Witness for C9 at `n = 703` (`"AAA"`). -/
theorem a1Col_roundTrip_witness :
    0 < 703 ∧ a1ColToIndex (indexToA1Col 703) = 703 :=
  ⟨by decide, a1Col_roundTrip 703 (by decide)⟩

/-! ## JS number-to-string rendering and the row checksum -/

/-- One decimal digit character. -/
def digitChar : Nat → Char
  | 0 => '0'
  | 1 => '1'
  | 2 => '2'
  | 3 => '3'
  | 4 => '4'
  | 5 => '5'
  | 6 => '6'
  | 7 => '7'
  | 8 => '8'
  | _ => '9'

/-- Decimal digits of a natural number (most significant first), as produced
by JS `String(n)` for integral `n`.  `fuel ≥ n` bounds the loop; `n / 10 < n`
makes it sufficient. -/
def natChars : Nat → Nat → List Char
  | 0, n => [digitChar n]
  | fuel + 1, n =>
    if n < 10 then [digitChar n]
    else natChars fuel (n / 10) ++ [digitChar (n % 10)]

/-- JS `String(i)` for an integral number `i`. -/
def intRepr (i : Int) : String :=
  if i < 0 then ⟨'-' :: natChars i.natAbs i.natAbs⟩
  else ⟨natChars i.toNat i.toNat⟩

/-- JS `ToInt32`: reduce an exact integer into `[-2^31, 2^31)`. -/
def toInt32 (x : Int) : Int :=
  let m := x % 4294967296
  if m < 2147483648 then m else m - 4294967296

/-- One step of the djb2 loop of `simpleRowChecksum` (index.js line 157):
`h = ((h << 5) + h) + s.charCodeAt(i)`.  In JS, `h << 5` coerces `h` to a
signed 32-bit integer and keeps the low 32 bits of the shift, while the two
additions are exact; `toInt32 (h * 32)` is exactly `ToInt32 h << 5`. -/
def checksumStep (h : Int) (c : Char) : Int :=
  toInt32 (h * 32) + h + c.toNat

/-- One base-36 digit, as used by JS `Number.prototype.toString(36)`. -/
def base36Digit (k : Nat) : Char :=
  if k < 10 then Char.ofNat (48 + k) else Char.ofNat (87 + k)

/-- Base-36 digits of `n`, most significant first (`fuel ≥ n` bounds the
loop). -/
def natTo36 : Nat → Nat → List Char
  | 0, n => [base36Digit n]
  | fuel + 1, n =>
    if n < 36 then [base36Digit n]
    else natTo36 fuel (n / 36) ++ [base36Digit (n % 36)]

/-- JS `(h >>> 0).toString(36)`. -/
def natToBase36 (n : Nat) : String := ⟨natTo36 n n⟩

/-- `simpleRowChecksum` (index.js lines 154-159): join the row's cells with
U+241F, run the djb2 loop over the UTF-16 code units, then render the
unsigned 32-bit result in base 36.  Cells are already strings in the
embedding, so the `String(v)` coercion is the identity; the engine only
ever compares checksums for equality. -/
def simpleRowChecksum (rowArray : List String) : String :=
  let s := String.intercalate "␟" rowArray
  let h := s.data.foldl checksumStep 5381
  natToBase36 (h % 4294967296).toNat

/-! ## C10 — the MSN checkbox selection predicate
(`runMsnCheckboxCopy`, index.js line 544). -/

/-- A spreadsheet cell value as surfaced to `runMsnCheckboxCopy`: a boolean,
a string, an integral number, or an empty/missing cell (JS `undefined`). -/
inductive CellVal where
  | boolean (b : Bool)
  | text (s : String)
  | number (i : Int)
  | blank
deriving DecidableEq

/-- JS `String(v)` on a cell value (`undefined` renders as "undefined"). -/
def jsStringOf : CellVal → String
  | .boolean true => "true"
  | .boolean false => "false"
  | .text s => s
  | .number i => intRepr i
  | .blank => "undefined"

/-- The selection predicate of index.js line 544:
`(flags[i] === true) || (String(flags[i]).toUpperCase() === "TRUE")`. -/
def msnIsTrue (v : CellVal) : Bool :=
  (match v with | .boolean true => true | _ => false) ||
    (toUpperStr (jsStringOf v) == "TRUE")

theorem digitChar_toUpper_ne (k : Nat) :
    Char.toUpper (digitChar k) = digitChar k ∧ digitChar k ≠ 'T' := by
  match k with
  | 0 => exact ⟨by decide, by decide⟩
  | 1 => exact ⟨by decide, by decide⟩
  | 2 => exact ⟨by decide, by decide⟩
  | 3 => exact ⟨by decide, by decide⟩
  | 4 => exact ⟨by decide, by decide⟩
  | 5 => exact ⟨by decide, by decide⟩
  | 6 => exact ⟨by decide, by decide⟩
  | 7 => exact ⟨by decide, by decide⟩
  | 8 => exact ⟨by decide, by decide⟩
  | n + 9 =>
    exact ⟨show Char.toUpper '9' = '9' by decide, show ('9' : Char) ≠ 'T' by decide⟩

theorem natChars_toUpper_ne (fuel n : Nat) (c : Char) (hc : c ∈ natChars fuel n) :
    Char.toUpper c = c ∧ c ≠ 'T' := by
  induction fuel generalizing n with
  | zero =>
    simp only [natChars, List.mem_singleton] at hc
    exact hc ▸ digitChar_toUpper_ne n
  | succ fuel ih =>
    simp only [natChars] at hc
    split at hc
    · simp only [List.mem_singleton] at hc
      exact hc ▸ digitChar_toUpper_ne n
    · rcases List.mem_append.mp hc with h | h
      · exact ih _ h
      · simp only [List.mem_singleton] at h
        exact h ▸ digitChar_toUpper_ne (n % 10)

theorem toUpperStr_intRepr_ne (i : Int) : toUpperStr (intRepr i) ≠ "TRUE" := by
  intro h
  have hdata : (toUpperStr (intRepr i)).data = "TRUE".data := by rw [h]
  have hT : 'T' ∈ (intRepr i).data.map Char.toUpper := by
    have : (toUpperStr (intRepr i)).data = (intRepr i).data.map Char.toUpper := rfl
    rw [this] at hdata
    rw [hdata]
    decide
  rcases List.mem_map.mp hT with ⟨c, hc, hup⟩
  unfold intRepr at hc
  split at hc
  · simp only at hc
    rcases List.mem_cons.mp hc with rfl | hc'
    · exact absurd hup (by decide)
    · rcases natChars_toUpper_ne _ _ _ hc' with ⟨heq, hne⟩
      exact hne (heq ▸ hup)
  · simp only at hc
    rcases natChars_toUpper_ne _ _ _ hc with ⟨heq, hne⟩
    exact hne (heq ▸ hup)

/-- C10 — the MSN migration's selection predicate holds iff the checkbox
cell is the boolean `true` or a string whose uppercase form is `"TRUE"`;
in particular the number `1`, the boolean `false` and an empty cell are
skipped. -/
theorem msnIsTrue_iff :
    (∀ v : CellVal, msnIsTrue v = true ↔
      (v = .boolean true ∨ ∃ s, v = .text s ∧ toUpperStr s = "TRUE")) ∧
    msnIsTrue (.number 1) = false ∧
    msnIsTrue (.boolean false) = false ∧
    msnIsTrue .blank = false := by
  refine ⟨?_, ?_, by decide, by decide⟩
  · intro v
    cases v with
    | boolean b =>
      cases b with
      | true => simp [msnIsTrue]
      | false =>
        simp only [msnIsTrue, jsStringOf, Bool.false_or]
        constructor
        · intro h
          exact absurd (eq_of_beq h) (by decide)
        · rintro (h | ⟨s, h, _⟩) <;> exact absurd h (by simp)
    | text s =>
      simp only [msnIsTrue, jsStringOf, Bool.false_or]
      constructor
      · intro h
        exact Or.inr ⟨s, rfl, eq_of_beq h⟩
      · rintro (h | ⟨s', hs, hup⟩)
        · exact absurd h (by simp)
        · cases hs
          exact beq_iff_eq.mpr hup
    | number i =>
      simp only [msnIsTrue, jsStringOf, Bool.false_or]
      constructor
      · intro h
        exact absurd (eq_of_beq h) (toUpperStr_intRepr_ne i)
      · rintro (h | ⟨s, h, _⟩) <;> exact absurd h (by simp)
    | blank =>
      simp only [msnIsTrue, jsStringOf, Bool.false_or]
      constructor
      · intro h
        exact absurd (eq_of_beq h) (by decide)
      · rintro (h | ⟨s, h, _⟩) <;> exact absurd h (by simp)
  · have : toUpperStr (jsStringOf (.number 1)) = "1" := by decide
    simp [msnIsTrue, this]

/-! ## C6 — the status classifier (index.js lines 326-334) -/

/-- The classification of one record by `runMigrations` (index.js lines
326-334): `statText` is the lowercased concatenation of the two status
cells (columns H and K) separated by a space; "meeting set" wins first,
then "interested" unless the text also contains "not interested". -/
def statusDest (colH colK : String) : Option String :=
  let statText := toLowerStr (colH ++ " " ++ colK)
  if includesStr statText "meeting set" then some "Meeting Set"
  else if includesStr statText "interested" && !includesStr statText "not interested" then
    some "Interested"
  else none

/-- C6 — classification precedence and exclusion: if the lowercased status
text contains both "meeting set" and "interested" the classifier yields
"Meeting Set"; if it contains "not interested" it never yields
"Interested". -/
theorem statusDest_precedence_exclusion (colH colK : String) :
    (includesStr (toLowerStr (colH ++ " " ++ colK)) "meeting set" = true →
      includesStr (toLowerStr (colH ++ " " ++ colK)) "interested" = true →
      statusDest colH colK = some "Meeting Set") ∧
    (includesStr (toLowerStr (colH ++ " " ++ colK)) "not interested" = true →
      statusDest colH colK ≠ some "Interested") := by
  constructor
  · intro hms _
    simp [statusDest, hms]
  · intro hni
    unfold statusDest
    by_cases hms : includesStr (toLowerStr (colH ++ " " ++ colK)) "meeting set" = true
    · simp [hms]
    · simp only [Bool.not_eq_true] at hms
      simp [hms, hni]

/-- Witness for C6 at concrete status cells. -/
theorem statusDest_precedence_exclusion_witness :
    statusDest "Meeting Set scheduled" "Interested" = some "Meeting Set" ∧
    statusDest "" "Not Interested" ≠ some "Interested" :=
  ⟨(statusDest_precedence_exclusion "Meeting Set scheduled" "Interested").1
      (by decide) (by decide),
    (statusDest_precedence_exclusion "" "Not Interested").2 (by decide)⟩

/-! ## C8 — retry wrapper `withBackoff` versus the engine's direct calls

`withBackoff` lives in the divergent batch module (the file embedded in
`src/webhook/scripts/stop_watch.sh`, lines 50-81): it re-runs a request
while the failure is retryable and the attempt limit (6) is not reached.
The migration engine in `src/index.js` calls
`sheets.spreadsheets.values.get` / `batchUpdate` directly (e.g. lines 301,
412-413) — `withBackoff` is not defined or imported there.  An operation's
behaviour is modelled by `outcomes k`, the result the remote store returns
on its `k`-th invocation of that operation. -/

/-- A JS error as inspected by `withBackoff`: the resolved numeric code
(`e?.code || e?.response?.status`) and the message. -/
structure JsError where
  code : Option Nat
  message : String
deriving DecidableEq

/-- The retryability test of `withBackoff` (stop_watch.sh module lines
57-65). -/
def isRetryableError (e : JsError) : Bool :=
  e.code == some 429 || e.code == some 503 || e.code == some 500 ||
    includesStr e.message "rateLimitExceeded" ||
    includesStr e.message "userRateLimitExceeded" ||
    includesStr e.message "ETIMEDOUT" ||
    includesStr e.message "ECONNRESET"

/-- The backoff delay before retry `attempt + 1`:
`min(30000, 500 * 2 ** attempt) + jitter`, with jitter drawn below 300. -/
def backoffDelay (attempt jitter : Nat) : Nat :=
  min 30000 (500 * 2 ^ attempt) + jitter % 300

/-- The retry loop of `withBackoff` with `left` retries still allowed: a
success returns, a non-retryable failure is rethrown, and a retryable
failure with no retries left (`attempt >= maxAttempts - 1`) is rethrown. -/
def withBackoffAux (outcomes : Nat → Except JsError α) (attempt : Nat) :
    Nat → Except JsError α
  | 0 => outcomes attempt
  | left + 1 =>
    match outcomes attempt with
    | .ok a => .ok a
    | .error e =>
      if isRetryableError e then withBackoffAux outcomes (attempt + 1) left
      else .error e

/-- `withBackoff` (stop_watch.sh module lines 50-81) with its attempt
limit. -/
def withBackoff (outcomes : Nat → Except JsError α) (maxAttempts : Nat) :
    Except JsError α :=
  withBackoffAux outcomes 0 (maxAttempts - 1)

/-- A remote operation as issued by `runMigrations` / `runMsnCheckboxCopy`
in `src/index.js`: the API client is invoked once and any failure
propagates out of the run. -/
def directCall (outcomes : Nat → Except JsError α) : Except JsError α :=
  outcomes 0

/-- A transient rate-limit failure. -/
def transient429 : JsError := ⟨some 429, "rateLimitExceeded"⟩

/-- An operation that fails transiently once and then succeeds. -/
def oneTransientThenOk : Nat → Except JsError Unit :=
  fun n => if n = 0 then .error transient429 else .ok ()

/-- Counterexample to C8: the engine's direct invocation aborts on a single
transient rate-limit failure that `withBackoff` would have retried to
success, so the engine's remote operations are not invoked through the
bounded-retry wrapper. -/
theorem engine_not_wrapped_counterexample :
    directCall oneTransientThenOk = .error transient429 ∧
    withBackoff oneTransientThenOk 6 = .ok () := by
  exact ⟨rfl, rfl⟩

theorem withBackoffAux_ok (outcomes : Nat → Except JsError α) (a : α) :
    ∀ (left attempt k : Nat), attempt ≤ k → k ≤ attempt + left →
      (∀ j, attempt ≤ j → j < k →
        ∃ e, outcomes j = .error e ∧ isRetryableError e = true) →
      outcomes k = .ok a → withBackoffAux outcomes attempt left = .ok a := by
  intro left
  induction left with
  | zero =>
    intro attempt k h1 h2 _ hk
    have : k = attempt := by omega
    subst this
    simpa [withBackoffAux] using hk
  | succ left ih =>
    intro attempt k h1 h2 hfail hk
    by_cases heq : attempt = k
    · subst heq
      simp [withBackoffAux, hk]
    · have hlt : attempt < k := by omega
      rcases hfail attempt (Nat.le_refl _) hlt with ⟨e, he, hre⟩
      simp only [withBackoffAux, he, hre, if_true]
      exact ih (attempt + 1) k (by omega) (by omega)
        (fun j hj hjk => hfail j (by omega) hjk) hk

theorem withBackoffAux_allFail (outcomes : Nat → Except JsError α) (e : JsError) :
    ∀ (left attempt : Nat),
      (∀ j, attempt ≤ j → j ≤ attempt + left → outcomes j = .error e) →
      withBackoffAux outcomes attempt left = .error e := by
  intro left
  induction left with
  | zero =>
    intro attempt hfail
    simpa [withBackoffAux] using hfail attempt (Nat.le_refl _) (by omega)
  | succ left ih =>
    intro attempt hfail
    have he := hfail attempt (Nat.le_refl _) (by omega)
    simp only [withBackoffAux, he]
    by_cases hre : isRetryableError e = true
    · simp only [hre, if_true]
      exact ih (attempt + 1) (fun j hj hjk => hfail j (by omega) (by omega))
    · simp only [Bool.not_eq_true] at hre
      simp [hre]

/-- C8 as amended — the retry wrapper of the companion batch module
retries transient failures up to the 6-attempt limit and rethrows
non-retryable errors immediately, while the migration engine of
`src/index.js` invokes each remote operation exactly once, so its first
failure (transient or not) aborts that run. -/
theorem withBackoff_behaviour :
    (∀ (α : Type) (outcomes : Nat → Except JsError α) (k : Nat) (a : α),
      k ≤ 5 →
      (∀ j, j < k → ∃ e, outcomes j = .error e ∧ isRetryableError e = true) →
      outcomes k = .ok a → withBackoff outcomes 6 = .ok a) ∧
    (∀ (α : Type) (outcomes : Nat → Except JsError α) (e : JsError),
      outcomes 0 = .error e → isRetryableError e = false →
      withBackoff outcomes 6 = .error e) ∧
    (∀ (α : Type) (outcomes : Nat → Except JsError α) (e : JsError),
      (∀ j, j ≤ 5 → outcomes j = .error e) →
      withBackoff outcomes 6 = .error e) ∧
    (∀ (α : Type) (outcomes : Nat → Except JsError α),
      directCall outcomes = outcomes 0) := by
  refine ⟨?_, ?_, ?_, fun _ _ => rfl⟩
  · intro α outcomes k a hk hfail hok
    exact withBackoffAux_ok outcomes a 5 0 k (Nat.zero_le _) (by omega)
      (fun j _ hj => hfail j hj) hok
  · intro α outcomes e he hre
    show withBackoffAux outcomes 0 5 = .error e
    simp [withBackoffAux, he, hre]
  · intro α outcomes e hfail
    exact withBackoffAux_allFail outcomes e 5 0
      (fun j _ hj => hfail j (by omega))

/-- A non-retryable authorization failure. -/
def permError : JsError := ⟨some 401, "Invalid Credentials"⟩

/-- An operation that always fails with the non-retryable error. -/
def alwaysPermError : Nat → Except JsError Unit := fun _ => .error permError

/-- Witness for the amended C8: a retryable failure before a success is
absorbed, and a non-retryable failure is rethrown at once. -/
theorem withBackoff_behaviour_witness :
    withBackoff oneTransientThenOk 6 = .ok () ∧
    withBackoff alwaysPermError 6 = .error permError := by
  constructor
  · refine withBackoff_behaviour.1 Unit oneTransientThenOk 1 () (by decide)
      (fun j hj => ?_) rfl
    interval_cases j
    exact ⟨transient429, rfl, by decide⟩
  · exact withBackoff_behaviour.2.1 Unit alwaysPermError permError rfl (by decide)

/-! ## The remote tabular store

A sheet is its title, its column count and its full grid of rows (row 1 is
the header row); the spreadsheet is the list of its sheets.  Cell values
are strings, which is what the status-migration engine compares and
copies.  Range reads return the grid with trailing empty rows and trailing
empty cells removed, as the values API does. -/

structure ModelSheet where
  title : String
  colCount : Nat
  rows : List (List String)
deriving DecidableEq

abbrev Store := List ModelSheet

def findSheet (st : Store) (title : String) : Option ModelSheet :=
  st.find? (fun s => s.title == title)

/-- Drop the longest suffix satisfying `p`. -/
def dropTrailing (p : α → Bool) (l : List α) : List α :=
  (l.reverse.dropWhile p).reverse

/-- A returned row: trailing empty cells are omitted. -/
def trimRow (r : List String) : List String := dropTrailing (· == "") r

/-- A returned grid: trailing empty rows are omitted and each row is
trimmed. -/
def trimGrid (g : List (List String)) : List (List String) :=
  (dropTrailing (fun r => trimRow r == []) g).map trimRow

/-- The effective column count (`columnCount || 26`, index.js line 109). -/
def effCols (s : ModelSheet) : Nat := if s.colCount = 0 then 26 else s.colCount

/-- `values.get` on `A2:{lastCol}{lastRow}`: data rows 2..rowCount,
truncated to the sheet's column count. -/
def gridRead (s : ModelSheet) : List (List String) :=
  trimGrid ((s.rows.drop 1).map (fun r => r.take (effCols s)))

/-- `values.get` on a single column `c` from row 2 down, with each entry
defaulted to `""` the way `String(r?.[0] ?? "")` does. -/
def colRead (s : ModelSheet) (c : Nat) : List String :=
  dropTrailing (· == "") ((s.rows.drop 1).map (fun r => r.getD (c - 1) ""))

/-- Pad a row with empty cells up to length `n`. -/
def padTo (l : List String) (n : Nat) : List String :=
  l ++ List.replicate (n - l.length) ""

/-- Write value `v` into cell (`rIdx1`, `cIdx1`), 1-based, extending the
row with empty cells if it is shorter than the target column. -/
def setCell (rows : List (List String)) (rIdx1 cIdx1 : Nat) (v : String) :
    List (List String) :=
  rows.set (rIdx1 - 1) ((padTo (rows.getD (rIdx1 - 1) []) cIdx1).set (cIdx1 - 1) v)

def updateSheet (st : Store) (title : String) (f : ModelSheet → ModelSheet) :
    Store :=
  st.map (fun s => if s.title == title then f s else s)

/-! ## Engine configuration (index.js lines 20-68) -/

def SHEETS : List String :=
  ["GeneralCreators - Outreach", "CreatorsWithNoYoutube",
   "LongFormCreators - Outreach", "ASMR, Relaxation & Satisfying",
   "Toys & Kid-Focused Entertainment",
   "Video Podcasts",
   "Personal Finance & Investing", "Health & Wellness",
   "Beauty & Fashion", "Gaming", "Education & How-To Content",
   "Business & Entrepreneurship", "Automotive", "Lifestyle & Vlogging",
   "Food & Cooking", "Travel", "Parenting & Family",
   "Home & DIY", "News & Commentary", "Music & Performance",
   "Movies & TV Commentary", "Currently In an MCN", "Science & Curiosity",
   "Luxury & High-End Lifestyle", "Real Estate & Investing",
   "Motivational & Self-Development"]

def STATUS_SHEETS : List String := SHEETS ++ ["Interested", "Meeting Set"]

/-- `STATUS_COLS = [8, 11]` (columns H and K). -/
def STATUS_COL_H : Nat := 8
def STATUS_COL_K : Nat := 11

def ID_COL : Nat := 20

def MSN_DEST_SHEET : String := "MSN Creators"
def MSN_ID_COL : Nat := 20
def MSN_HEADER_ROW : Nat := 1

def MIGRATE_STATUS_AS_MOVE : Bool := true
def MIGRATE_MSN_AS_MOVE : Bool := true
def REQUIRE_DEST_ID_BEFORE_DELETE : Bool := true
def VERIFY_SOURCE_CHECKSUM_BEFORE_DELETE : Bool := true

/-! ## Identity sets and the delete-verification stage -/

/-- `buildIdSet` (index.js lines 275-284) and the identical `buildIdSet2`
(lines 419-428): the non-empty values of the ID column (T) of the named
sheet, from row 2 down.  The JS `Set` is modelled as the list of its
elements in insertion order; only membership is ever used. -/
def buildIdSet (st : Store) (title : String) : List String :=
  match findSheet st title with
  | none => []
  | some s =>
    let lastRow := if s.rows.length = 0 then 2 else s.rows.length
    if lastRow < 2 then []
    else (colRead s ID_COL).filter (fun v => v ≠ "")

/-- The destination ID re-read of `runMsnCheckboxCopy` (index.js lines
617-620): column T of "MSN Creators" from below the header row, open
ended. -/
def msnHaveIds (st : Store) : List String :=
  match findSheet st MSN_DEST_SHEET with
  | none => []
  | some s => (colRead s MSN_ID_COL).filter (fun v => v ≠ "")

/-- A delete-plan entry of `runMigrations` (index.js lines 381-386). -/
structure StatusDelItem where
  rowIdx1 : Nat
  checksum : String
  dest : String
  id : String
deriving DecidableEq

/-- A delete-plan entry of `runMsnCheckboxCopy` (index.js lines 587-591). -/
structure MsnDelItem where
  rowIdx1 : Nat
  checksum : String
  id : String
deriving DecidableEq

/-- The delete-admission loop of `runMigrations` (index.js lines 449-461):
an item is admitted only if its ID is in the re-read destination set for
its destination and the re-read source row still hashes to the plan-time
checksum. -/
def statusRowsToDelete (list : List StatusDelItem)
    (haveInterested haveMeeting : List String)
    (sourceRowsValues : List (List String)) : List Nat :=
  (list.filter (fun item =>
    (!REQUIRE_DEST_ID_BEFORE_DELETE ||
      (if item.dest == "Interested" then haveInterested.contains item.id
       else haveMeeting.contains item.id)) &&
    (!VERIFY_SOURCE_CHECKSUM_BEFORE_DELETE ||
      (simpleRowChecksum (sourceRowsValues.getD (item.rowIdx1 - 2) []) ==
        item.checksum)))).map (fun item => item.rowIdx1)

/-- The delete-admission loop of `runMsnCheckboxCopy` (index.js lines
639-647). -/
def msnRowsToDelete (plan : List MsnDelItem) (haveId : List String)
    (sourceRowsValues : List (List String)) : List Nat :=
  (plan.filter (fun item =>
    (!REQUIRE_DEST_ID_BEFORE_DELETE || haveId.contains item.id) &&
    (!VERIFY_SOURCE_CHECKSUM_BEFORE_DELETE ||
      (simpleRowChecksum (sourceRowsValues.getD (item.rowIdx1 - 2) []) ==
        item.checksum)))).map (fun item => item.rowIdx1)

/-- Elements of a list that map to the same key are equal when the mapped
keys are pairwise distinct. -/
theorem eq_of_nodup_key {β : Type} {γ : Type} (f : β → γ) {l : List β} {x y : β}
    (hnd : (l.map f).Nodup) (hx : x ∈ l) (hy : y ∈ l) (h : f x = f y) : x = y :=
  List.inj_on_of_nodup_map hnd hx hy h

/-- C2 — checksum guard: in both delete-verification stages, a plan item
whose re-read source row hashes differently from its plan-time checksum
snapshot is not admitted for deletion, whatever its destination or
identity. -/
theorem checksum_guard :
    (∀ (list : List StatusDelItem) (haveInterested haveMeeting : List String)
        (sourceRowsValues : List (List String)) (item : StatusDelItem),
      item ∈ list → (list.map (fun i => i.rowIdx1)).Nodup →
      simpleRowChecksum (sourceRowsValues.getD (item.rowIdx1 - 2) []) ≠
        item.checksum →
      item.rowIdx1 ∉
        statusRowsToDelete list haveInterested haveMeeting sourceRowsValues) ∧
    (∀ (plan : List MsnDelItem) (haveId : List String)
        (sourceRowsValues : List (List String)) (item : MsnDelItem),
      item ∈ plan → (plan.map (fun i => i.rowIdx1)).Nodup →
      simpleRowChecksum (sourceRowsValues.getD (item.rowIdx1 - 2) []) ≠
        item.checksum →
      item.rowIdx1 ∉ msnRowsToDelete plan haveId sourceRowsValues) := by
  constructor
  · intro list hi hm src item hitem hnd hne hmem
    rcases List.mem_map.mp hmem with ⟨item', hfil, heq⟩
    have hguard := List.of_mem_filter hfil
    have hitem' := List.mem_of_mem_filter hfil
    have : item' = item := eq_of_nodup_key _ hnd hitem' hitem heq
    subst this
    simp only [REQUIRE_DEST_ID_BEFORE_DELETE,
      VERIFY_SOURCE_CHECKSUM_BEFORE_DELETE, Bool.not_true, Bool.false_or,
      Bool.and_eq_true, beq_iff_eq] at hguard
    exact hne hguard.2
  · intro plan hid src item hitem hnd hne hmem
    rcases List.mem_map.mp hmem with ⟨item', hfil, heq⟩
    have hguard := List.of_mem_filter hfil
    have hitem' := List.mem_of_mem_filter hfil
    have : item' = item := eq_of_nodup_key _ hnd hitem' hitem heq
    subst this
    simp only [REQUIRE_DEST_ID_BEFORE_DELETE,
      VERIFY_SOURCE_CHECKSUM_BEFORE_DELETE, Bool.not_true, Bool.false_or,
      Bool.and_eq_true, beq_iff_eq] at hguard
    exact hne hguard.2

/-- Witness for C2: items whose snapshot cannot match the re-read row are
kept out of both delete sets. -/
theorem checksum_guard_witness :
    (2 : Nat) ∉
      statusRowsToDelete [⟨2, "zz", "Interested", "a"⟩] ["a"] []
        [["changed"]] ∧
    (2 : Nat) ∉ msnRowsToDelete [⟨2, "zz", "b"⟩] ["b"] [["changed"]] :=
  ⟨checksum_guard.1 [⟨2, "zz", "Interested", "a"⟩] ["a"] [] [["changed"]]
      ⟨2, "zz", "Interested", "a"⟩ (by decide) (by decide) (by decide),
    checksum_guard.2 [⟨2, "zz", "b"⟩] ["b"] [["changed"]] ⟨2, "zz", "b"⟩
      (by decide) (by decide) (by decide)⟩

/-- C3 — destination-identity guard: in both delete-verification stages,
run against identity sets re-read from the post-copy store, an admitted
item's identity is a member of the re-read destination identity set; an
item whose identity is absent from that authoritative read is not
deleted. -/
theorem identity_guard :
    (∀ (postStore : Store) (list : List StatusDelItem)
        (sourceRowsValues : List (List String)) (item : StatusDelItem),
      item ∈ list → (list.map (fun i => i.rowIdx1)).Nodup →
      (item.dest = "Interested" ∨ item.dest = "Meeting Set") →
      item.rowIdx1 ∈
        statusRowsToDelete list (buildIdSet postStore "Interested")
          (buildIdSet postStore "Meeting Set") sourceRowsValues →
      item.id ∈ buildIdSet postStore item.dest) ∧
    (∀ (postStore : Store) (plan : List MsnDelItem)
        (sourceRowsValues : List (List String)) (item : MsnDelItem),
      item ∈ plan → (plan.map (fun i => i.rowIdx1)).Nodup →
      item.rowIdx1 ∈
        msnRowsToDelete plan (msnHaveIds postStore) sourceRowsValues →
      item.id ∈ msnHaveIds postStore) := by
  constructor
  · intro post list src item hitem hnd hdest hmem
    rcases List.mem_map.mp hmem with ⟨item', hfil, heq⟩
    have hguard := List.of_mem_filter hfil
    have hitem' := List.mem_of_mem_filter hfil
    have : item' = item := eq_of_nodup_key _ hnd hitem' hitem heq
    subst this
    simp only [REQUIRE_DEST_ID_BEFORE_DELETE,
      VERIFY_SOURCE_CHECKSUM_BEFORE_DELETE, Bool.not_true, Bool.false_or,
      Bool.and_eq_true] at hguard
    rcases hdest with hd | hd <;> rw [hd] <;> rw [hd] at hguard <;>
      simpa using hguard.1
  · intro post plan src item hitem hnd hmem
    rcases List.mem_map.mp hmem with ⟨item', hfil, heq⟩
    have hguard := List.of_mem_filter hfil
    have hitem' := List.mem_of_mem_filter hfil
    have : item' = item := eq_of_nodup_key _ hnd hitem' hitem heq
    subst this
    simp only [REQUIRE_DEST_ID_BEFORE_DELETE,
      VERIFY_SOURCE_CHECKSUM_BEFORE_DELETE, Bool.not_true, Bool.false_or,
      Bool.and_eq_true] at hguard
    simpa using hguard.1

/-- Post-copy store used by the C3 witness: destination sheets whose ID
columns hold the copied identities. -/
def c3PostStore : Store :=
  [⟨"Interested", 20, [["h"], List.replicate 19 "" ++ ["a"]]⟩,
   ⟨"MSN Creators", 20, [["h"], List.replicate 19 "" ++ ["b"]]⟩]

/-- Witness for C3: admitted items' identities are in the re-read
destination sets. -/
theorem identity_guard_witness :
    "a" ∈ buildIdSet c3PostStore "Interested" ∧ "b" ∈ msnHaveIds c3PostStore :=
  ⟨identity_guard.1 c3PostStore
      [⟨2, simpleRowChecksum ["x"], "Interested", "a"⟩] [["x"]]
      ⟨2, simpleRowChecksum ["x"], "Interested", "a"⟩ (by decide) (by decide)
      (Or.inl rfl) (by decide),
    identity_guard.2 c3PostStore [⟨2, simpleRowChecksum ["x"], "b"⟩] [["x"]]
      ⟨2, simpleRowChecksum ["x"], "b"⟩ (by decide) (by decide) (by decide)⟩

/-! ## C5 — delete ordering (index.js lines 464-475 and 649-660)

Both engines sort each sheet's admitted delete positions descending
(`rowsToDelete.sort((a, b) => b - a)`) and emit one `deleteDimension`
request per position, executed in order within a single batch.  `sortDescNat`
models the JS descending sort; `applyDeletes` models executing the batch,
each request removing the (1-based) row at its index from the current
grid. -/

def sortDescNat (l : List Nat) : List Nat := l.insertionSort (· ≥ ·)

def applyDeletes (rows : List α) (ps : List Nat) : List α :=
  ps.foldl (fun rs r => rs.eraseIdx (r - 1)) rows

/-- The rows that survive when the 1-based positions in `ps` are removed
from a grid whose first row has position `k`, all other rows keeping their
relative order. -/
def keepRowsAux (k : Nat) (ps : List Nat) : List α → List α
  | [] => []
  | a :: tl =>
    if k ∈ ps then keepRowsAux (k + 1) ps tl else a :: keepRowsAux (k + 1) ps tl

theorem keepRowsAux_all_lt (ps : List Nat) :
    ∀ (l : List α) (k : Nat), (∀ q ∈ ps, q < k) → keepRowsAux k ps l = l := by
  intro l
  induction l with
  | nil => intro k _; rfl
  | cons a tl ih =>
    intro k hk
    have : k ∉ ps := fun hmem => absurd (hk k hmem) (by omega)
    simp only [keepRowsAux, if_neg this]
    rw [ih (k + 1) (fun q hq => by have := hk q hq; omega)]

theorem keepRowsAux_eraseIdx (ps : List Nat) (p : Nat) :
    ∀ (l : List α) (k : Nat), k ≤ p → p - k < l.length → (∀ q ∈ ps, q < p) →
      keepRowsAux k ps (l.eraseIdx (p - k)) = keepRowsAux k (p :: ps) l := by
  intro l
  induction l with
  | nil => intro k _ h2 _; simp at h2
  | cons a tl ih =>
    intro k h1 h2 h3
    by_cases hk : k = p
    · subst hk
      have h0 : k - k = 0 := by omega
      rw [h0]
      show keepRowsAux k ps tl = keepRowsAux k (k :: ps) (a :: tl)
      rw [keepRowsAux_all_lt ps tl k h3]
      simp only [keepRowsAux, List.mem_cons, true_or, if_pos]
      have hall : ∀ q ∈ k :: ps, q < k + 1 := by
        intro q hq
        rcases List.mem_cons.mp hq with rfl | hq'
        · omega
        · have hq3 := h3 q hq'
          omega
      rw [keepRowsAux_all_lt (k :: ps) tl (k + 1) hall]
    · have hlt : k < p := by omega
      have hm : p - k = (p - (k + 1)) + 1 := by omega
      rw [hm]
      show keepRowsAux k ps (a :: tl.eraseIdx (p - (k + 1))) =
        keepRowsAux k (p :: ps) (a :: tl)
      have hk1 : (k ∈ p :: ps) ↔ (k ∈ ps) := by
        rw [List.mem_cons]
        exact ⟨fun h => h.resolve_left (by omega), Or.inr⟩
      have h2' : p - (k + 1) < tl.length := by
        simp only [List.length_cons] at h2
        omega
      by_cases hkps : k ∈ ps
      · simp only [keepRowsAux, if_pos hkps, if_pos (hk1.mpr hkps)]
        exact ih (k + 1) (by omega) h2' h3
      · simp only [keepRowsAux, if_neg hkps, if_neg (fun h => hkps (hk1.mp h))]
        rw [ih (k + 1) (by omega) h2' h3]

theorem applyDeletes_desc (ps : List Nat) :
    ∀ rows : List α, List.Pairwise (· > ·) ps →
      (∀ p ∈ ps, 1 ≤ p ∧ p ≤ rows.length) →
      applyDeletes rows ps = keepRowsAux 1 ps rows := by
  induction ps with
  | nil =>
    intro rows _ _
    rw [(rfl : applyDeletes rows [] = rows)]
    exact (keepRowsAux_all_lt [] rows 1 (by simp)).symm
  | cons p ps ih =>
    intro rows hpw hbd
    rcases List.pairwise_cons.mp hpw with ⟨hhead, htail⟩
    have hp := hbd p (List.mem_cons_self p ps)
    have hlen : (rows.eraseIdx (p - 1)).length = rows.length - 1 := by
      rw [List.length_eraseIdx]
      simp only [if_pos (by omega : p - 1 < rows.length)]
    have step : applyDeletes rows (p :: ps) =
        applyDeletes (rows.eraseIdx (p - 1)) ps := rfl
    have hbd' : ∀ q ∈ ps, 1 ≤ q ∧ q ≤ (rows.eraseIdx (p - 1)).length := by
      intro q hq
      have h1 := hbd q (List.mem_cons_of_mem p hq)
      have h2 := hhead q hq
      omega
    rw [step, ih (rows.eraseIdx (p - 1)) htail hbd']
    exact keepRowsAux_eraseIdx ps p rows 1 (by omega) (by omega) hhead

theorem keepRowsAux_congr (ps qs : List Nat) (h : ∀ n, n ∈ ps ↔ n ∈ qs) :
    ∀ (l : List α) (k : Nat), keepRowsAux k ps l = keepRowsAux k qs l := by
  intro l
  induction l with
  | nil => intro k; rfl
  | cons a tl ih =>
    intro k
    by_cases hk : k ∈ ps
    · simp only [keepRowsAux, if_pos hk, if_pos ((h k).mp hk)]
      exact ih (k + 1)
    · simp only [keepRowsAux, if_neg hk, if_neg (fun hq => hk ((h k).mpr hq))]
      rw [ih (k + 1)]

/-- C5 — delete-ordering correctness: the committed order of a batch of
admitted delete positions is strictly descending, and executing the batch
removes exactly the admitted positions, every remaining row keeping its
original relative order. -/
theorem delete_ordering (admitted : List Nat) (rows : List (List String))
    (hnd : admitted.Nodup)
    (hbound : ∀ p ∈ admitted, 1 ≤ p ∧ p ≤ rows.length) :
    List.Pairwise (· > ·) (sortDescNat admitted) ∧
    applyDeletes rows (sortDescNat admitted) = keepRowsAux 1 admitted rows := by
  have hperm : List.Perm (sortDescNat admitted) admitted :=
    List.perm_insertionSort (· ≥ ·) admitted
  have hsorted : List.Pairwise (· ≥ ·) (sortDescNat admitted) :=
    List.sorted_insertionSort (· ≥ ·) admitted
  have hnd' : (sortDescNat admitted).Nodup := hperm.nodup_iff.mpr hnd
  have hgt : List.Pairwise (· > ·) (sortDescNat admitted) := by
    have hand := List.Pairwise.and hsorted hnd'
    exact hand.imp (fun h => lt_of_le_of_ne h.1 (Ne.symm h.2))
  refine ⟨hgt, ?_⟩
  rw [applyDeletes_desc (sortDescNat admitted) rows hgt
    (fun p hp => hbound p (hperm.mem_iff.mp hp))]
  exact keepRowsAux_congr _ _ (fun n => hperm.mem_iff) rows 1

/-- Witness for C5 at the spec's example positions {3, 7, 2, 9}. -/
theorem delete_ordering_witness :
    sortDescNat [3, 7, 2, 9] = [9, 7, 3, 2] ∧
    List.Pairwise (· > ·) (sortDescNat [3, 7, 2, 9]) ∧
    applyDeletes (List.replicate 9 ([] : List String)) (sortDescNat [3, 7, 2, 9]) =
      keepRowsAux 1 [3, 7, 2, 9] (List.replicate 9 []) :=
  ⟨by decide,
    (delete_ordering [3, 7, 2, 9] (List.replicate 9 []) (by decide) (by decide)).1,
    (delete_ordering [3, 7, 2, 9] (List.replicate 9 []) (by decide) (by decide)).2⟩

/-! ## Operational embedding of `runMigrations` (index.js lines 266-485)

The run is the sequential composition the source performs: ensure the two
destination sheets, snapshot the metadata, seed the destination identity
sets, process each title of `STATUS_SHEETS` (planning copies, staging
delete candidates, flushing identity write-backs per sheet), commit the
copy batch, re-read the destination identity sets and the source grids,
admit and sort delete positions, and commit the delete batch.
`generateUniqueId` (a wall-clock/random value) is modelled by the supply
`idGen` indexed by a counter. -/

/-- One `copyPaste` request (index.js lines 360-378), identified by sheet
titles (titles are unique, standing in for sheet ids). -/
structure CopyReq where
  srcTitle : String
  srcRow : Nat
  destTitle : String
  destRow : Nat
  colCount : Nat
deriving DecidableEq

/-- JS `Set.add`. -/
def setAdd (l : List String) (x : String) : List String :=
  if l.contains x then l else l ++ [x]

/-- `getNextDestRow` with no cached value (index.js lines 308-316): read
column `A:A` of the destination and return (number of used rows) + 1.
The values API returns column A up to its last non-empty cell. -/
def getNextDestRowRead (st : Store) (destTitle : String) : Nat :=
  match findSheet st destTitle with
  | none => 1
  | some s =>
    (dropTrailing (· == "") (s.rows.map (fun r => r.getD 0 ""))).length + 1

/-- State of the per-sheet row loop of `runMigrations`
(index.js lines 317-392). -/
structure RowState where
  idCol : List String
  idWrites : List (Nat × String)
  dels : List StatusDelItem
  interestedNext : Option Nat
  meetingNext : Option Nat
  copyReqs : List CopyReq
  interestedIds : List String
  meetingIds : List String
  counter : Nat

/-- One iteration of the row loop (index.js lines 323-392): classify,
ensure an identity (staging a write-back when fresh), skip when the
destination already holds the identity, assign the destination append row
from the per-sheet cached counter (falling back to a live `A:A` read),
emit the copy request and the delete candidate, and update the in-memory
identity sets. -/
def processStatusRow (st : Store) (title : String) (colCount : Nat)
    (rows : List (List String)) (idGen : Nat → String) (rs : RowState)
    (i : Nat) : RowState :=
  let rowIdx1 := i + 2
  let row := rows.getD i []
  let colH := row.getD (STATUS_COL_H - 1) ""
  let colK := row.getD (STATUS_COL_K - 1) ""
  match statusDest colH colK with
  | none => rs
  | some dest =>
    let id0 := rs.idCol.getD i ""
    let fresh := id0 == ""
    let id := if fresh then idGen rs.counter else id0
    let rs := { rs with
      idCol := if fresh then (padTo rs.idCol (i + 1)).set i id else rs.idCol,
      idWrites := if fresh then rs.idWrites ++ [(rowIdx1, id)] else rs.idWrites,
      counter := if fresh then rs.counter + 1 else rs.counter }
    if dest == "Interested" && rs.interestedIds.contains id then rs
    else if dest == "Meeting Set" && rs.meetingIds.contains id then rs
    else if dest == "Interested" then
      let nxt := match rs.interestedNext with
        | some c => c
        | none => getNextDestRowRead st "Interested"
      { rs with
        copyReqs := rs.copyReqs ++ [⟨title, rowIdx1, dest, nxt, colCount⟩],
        dels := if MIGRATE_STATUS_AS_MOVE then
            rs.dels ++ [⟨rowIdx1, simpleRowChecksum row, dest, id⟩]
          else rs.dels,
        interestedNext := some (nxt + 1),
        interestedIds := setAdd rs.interestedIds id }
    else
      let nxt := match rs.meetingNext with
        | some c => c
        | none => getNextDestRowRead st "Meeting Set"
      { rs with
        copyReqs := rs.copyReqs ++ [⟨title, rowIdx1, dest, nxt, colCount⟩],
        dels := if MIGRATE_STATUS_AS_MOVE then
            rs.dels ++ [⟨rowIdx1, simpleRowChecksum row, dest, id⟩]
          else rs.dels,
        meetingNext := some (nxt + 1),
        meetingIds := setAdd rs.meetingIds id }

/-- Flush the staged identity write-backs of one sheet as the batched
value write of index.js lines 395-404. -/
def applyIdWrites (st : Store) (title : String) (ws : List (Nat × String)) :
    Store :=
  ws.foldl
    (fun st2 w =>
      updateSheet st2 title (fun s => { s with rows := setCell s.rows w.1 ID_COL w.2 }))
    st

/-- State threaded across the sheet loop of `runMigrations`. -/
structure PlanState where
  store : Store
  interestedIds : List String
  meetingIds : List String
  copyReqs : List CopyReq
  deletePlan : List (String × List StatusDelItem)
  counter : Nat

/-- Processing of one source title (index.js lines 291-409): sheet lookup
and dimensions come from the metadata snapshot, the value reads hit the
live store, and the per-sheet append counters start uncached. -/
def processStatusSheet (meta : Store) (idGen : Nat → String) (ps : PlanState)
    (title : String) : PlanState :=
  match findSheet meta title with
  | none => ps
  | some s =>
    let lastRow := if s.rows.length = 0 then 2 else s.rows.length
    if lastRow < 2 then ps
    else
      let live := match findSheet ps.store title with
        | some x => x
        | none => s
      let rows := gridRead live
      let idCol := colRead live ID_COL
      let rs0 : RowState :=
        ⟨idCol, [], [], none, none, ps.copyReqs, ps.interestedIds,
          ps.meetingIds, ps.counter⟩
      let rs := (List.range rows.length).foldl
        (processStatusRow ps.store title s.colCount rows idGen) rs0
      let store1 := applyIdWrites ps.store title rs.idWrites
      let deletePlan1 :=
        if MIGRATE_STATUS_AS_MOVE && !rs.dels.isEmpty then
          ps.deletePlan ++ [(title, rs.dels)]
        else ps.deletePlan
      ⟨store1, rs.interestedIds, rs.meetingIds, rs.copyReqs, deletePlan1,
        rs.counter⟩

def padRows (rows : List (List String)) (n : Nat) : List (List String) :=
  rows ++ List.replicate (n - rows.length) []

/-- Execute one `copyPaste` request at commit time (index.js lines
360-378, committed at 412-414): the source range `A..colCount` of the
source row, read from the current store, replaces the same column span of
the destination row. -/
def pasteRow (st : Store) (req : CopyReq) : Store :=
  match findSheet st req.srcTitle with
  | none => st
  | some src =>
    let content := padTo ((src.rows.getD (req.srcRow - 1) []).take req.colCount)
      req.colCount
    updateSheet st req.destTitle (fun d =>
      let newRow := content ++ ((d.rows.getD (req.destRow - 1) []).drop req.colCount)
      { d with rows := (padRows d.rows req.destRow).set (req.destRow - 1) newRow })

/-- Execute one `deleteDimension` request on rows (index.js lines
465-474): remove the 1-based row `r` from the sheet's current grid. -/
def deleteRowAt (st : Store) (title : String) (r : Nat) : Store :=
  updateSheet st title (fun s => { s with rows := s.rows.eraseIdx (r - 1) })

/-- `getOrCreateSheet` (index.js lines 142-153): append a default-sized
sheet when the title is missing. -/
def ensureSheet (st : Store) (title : String) : Store :=
  match findSheet st title with
  | some _ => st
  | none => st ++ [⟨title, 26, List.replicate 1000 []⟩]

/-- The observable outcome of one `runMigrations` invocation. -/
structure RunTrace where
  finalStore : Store
  copyReqs : List CopyReq
  deleteReqs : List (String × Nat)
  deletePlan : List (String × List StatusDelItem)
deriving DecidableEq

/-- `runMigrations` (index.js lines 266-485), end to end. -/
def runMigrationsModel (st0 : Store) (idGen : Nat → String) (counter0 : Nat) :
    RunTrace :=
  let st1 := ensureSheet (ensureSheet st0 "Interested") "Meeting Set"
  let meta := st1
  let ps0 : PlanState :=
    ⟨st1, buildIdSet st1 "Interested", buildIdSet st1 "Meeting Set", [], [],
      counter0⟩
  let ps := STATUS_SHEETS.foldl (processStatusSheet meta idGen) ps0
  let stC := ps.copyReqs.foldl pasteRow ps.store
  let deleteReqs :=
    if MIGRATE_STATUS_AS_MOVE then
      let haveInterested := buildIdSet stC "Interested"
      let haveMeeting := buildIdSet stC "Meeting Set"
      ps.deletePlan.foldl (fun acc pr =>
        match findSheet meta pr.1 with
        | none => acc
        | some _ =>
          let srcRows := match findSheet stC pr.1 with
            | some live => gridRead live
            | none => []
          let rowsToDelete :=
            statusRowsToDelete pr.2 haveInterested haveMeeting srcRows
          acc ++ (sortDescNat rowsToDelete).map (fun r => (pr.1, r))) []
    else []
  let finalStore := deleteReqs.foldl (fun st tr => deleteRowAt st tr.1 tr.2) stC
  ⟨finalStore, ps.copyReqs, deleteReqs, ps.deletePlan⟩

/-! ## Concrete runs

`statusRowSrc id` is a 20-cell source row whose status cell (column H)
reads "Interested" and whose ID cell (column T) holds `id`. -/

def statusRowSrc (idv : String) : List String :=
  List.replicate 7 "" ++ ["Interested"] ++ List.replicate 11 "" ++ [idv]

/-- Two source sheets, each with one migratable row that already carries an
identity, plus the two destination sheets ("Interested" has a header row
and two empty data rows). -/
def collisionStore : Store :=
  [⟨"Gaming", 20, [["Name"], statusRowSrc "idA"]⟩,
   ⟨"Travel", 20, [["Name"], statusRowSrc "idB"]⟩,
   ⟨"Interested", 20, [["Name"], [], []]⟩,
   ⟨"Meeting Set", 20, [["Name"]]⟩]

/-- C1 fails on the code: the per-sheet append counters are reset for each
source sheet (index.js lines 317-318 are inside the sheet loop) while the
copy batch is only committed after the loop (line 412), so the `A:A`
re-read for the second sheet does not see the first sheet's pending copy
and both plan items of one run are assigned destination row 2 of
"Interested" — the second `copyPaste` overwrites the first. -/
theorem append_collision :
    (runMigrationsModel collisionStore (fun _ => "") 0).copyReqs.map
        (fun r => (r.destTitle, r.destRow)) =
      [("Interested", 2), ("Interested", 2)] ∧
    ¬ List.Pairwise (fun a b : String × Nat => a ≠ b)
        ((runMigrationsModel collisionStore (fun _ => "") 0).copyReqs.map
          (fun r => (r.destTitle, r.destRow))) := by
  have hmap : (runMigrationsModel collisionStore (fun _ => "") 0).copyReqs.map
      (fun r => (r.destTitle, r.destRow)) =
      [("Interested", 2), ("Interested", 2)] := by decide
  refine ⟨hmap, fun hpw => ?_⟩
  rw [hmap] at hpw
  rcases List.pairwise_cons.mp hpw with ⟨hne, _⟩
  exact hne _ (List.mem_cons_self _ _) rfl

/-- C4 fails on the code, through the same append-position collision: on
`collisionStore` the first run's second copy overwrites the first copy's
destination row (including its ID cell), so "idA" is not visible at
verification time, Gaming's row is retained, and the second run — on a
store nobody else touched — performs one copy and one delete instead of
zero. -/
theorem second_run_not_noop :
    ((runMigrationsModel
        (runMigrationsModel collisionStore (fun _ => "") 0).finalStore
        (fun _ => "") 0).copyReqs).length = 1 ∧
    ((runMigrationsModel
        (runMigrationsModel collisionStore (fun _ => "") 0).finalStore
        (fun _ => "") 0).deleteReqs).length = 1 := by
  exact ⟨by decide, by decide⟩

/-- A source row that classifies to "Interested" and has an empty identity
cell. -/
def freshRowSrc : List String := List.replicate 7 "" ++ ["Interested"]

def freshIdStore : Store :=
  [⟨"Gaming", 20, [["Name"], freshRowSrc]⟩,
   ⟨"Interested", 20, [["Name"], [], []]⟩,
   ⟨"Meeting Set", 20, [["Name"]]⟩]

/-- C7 fails on the code: for a classifying row with an empty identity
cell, one run mints the identity, writes it back to the source row, and
copies the row (carrying the identity) to the destination's next free row
— but the plan-time checksum snapshot was taken before the identity
write-back, so the delete-stage re-read (which now sees the identity in
column T) hashes differently, the checksum guard refuses the deletion,
and the source row is retained instead of deleted. -/
theorem first_run_keeps_fresh_row :
    (runMigrationsModel freshIdStore (fun _ => "id-abc123") 0).copyReqs.length = 1 ∧
    buildIdSet (runMigrationsModel freshIdStore (fun _ => "id-abc123") 0).finalStore
        "Interested" = ["id-abc123"] ∧
    (match findSheet (runMigrationsModel freshIdStore (fun _ => "id-abc123") 0).finalStore
        "Gaming" with
      | some s => (s.rows.getD 1 []).getD 19 ""
      | none => "") = "id-abc123" ∧
    (match findSheet (runMigrationsModel freshIdStore (fun _ => "id-abc123") 0).finalStore
        "Gaming" with
      | some s => s.rows.length
      | none => 0) = 2 ∧
    (runMigrationsModel freshIdStore (fun _ => "id-abc123") 0).deleteReqs = [] := by
  exact ⟨by decide, by decide, by decide, by decide, by decide⟩

end SheetsAutomation
